import Mathlib

/-!
Verification of the GoCD golang agent build session interpreter
(`agent/build_session.go`), shallowly embedded in Lean.

External effects (filesystem stat, glob expansion, URL parsing,
subprocess execution, HTTP uploads) are resolved by a `World` oracle;
session-visible effects (console lines, outbound report messages,
artifact upload calls, environment bindings) are recorded in
`SessionState`.  A Go `panic` is modelled as the `.error` branch of
`Except String`; an ordinary Go `error` return is the `Option String`
in the result pair (the string being the error message).

The interpreter recursion is bounded by an explicit fuel parameter so
that all definitions compute by kernel reduction; running out of fuel
yields the `.error` branch, which every theorem's hypotheses exclude,
and all results hold for every sufficient fuel.
-/

namespace GocdAgent

/-- Outcome of running one external subprocess (`exec.Cmd.Run` raced
against the session's cancel channel in `processExec`): either the
`done` channel wins with the run's error, or the cancel channel wins
(in which case the kill attempt may itself fail with an error that is
logged to the console). -/
inductive ExecOutcome where
  | finished (err : Option String)
  | canceled (killErr : Option String)
deriving Repr, DecidableEq

/-- Payload of `statusReport`: the fields of the map sent in a report
message (the `agentRuntimeInfo` field is produced by an external
collaborator and is not modelled). -/
structure StatusReport where
  buildId : String
  jobState : String
  result : String
deriving Repr, DecidableEq

/-- An outbound message produced by `protocal.ReportMessage(cmd.Name, report)`
and placed on the session's `Send` channel. -/
structure ReportMessage where
  name : String
  report : StatusReport
deriving Repr, DecidableEq

/-- Session state of `BuildSession`, plus the observable event logs
(console lines, sent messages, upload calls) that the Go code emits
through its collaborators. -/
structure SessionState where
  buildStatus : String
  buildId : String
  envs : List (String × String)
  console : List String
  sent : List ReportMessage
  uploads : List (String × String)
  canceled : Bool
  execCount : Nat
deriving Repr, DecidableEq

/-- The state of a freshly made `BuildSession` (`MakeBuildSession`):
`buildStatus` unset, no build id, no bindings, nothing emitted. -/
def initialState : SessionState :=
  { buildStatus := "", buildId := "", envs := [], console := [], sent := [],
    uploads := [], canceled := false, execCount := 0 }

/-- Oracle resolving every effect of the session that depends on the
outside world: the agent config's URL completion, `url.Parse` failures,
`os.Stat`, `filepath.Abs`, `filepath.Glob`, `Uploader.BuildDestURL`,
`Uploader.Upload`, and the race between subprocess completion and
cancellation in `processExec` (indexed by the number of execs run so
far).  `uploadFuel` bounds the recursion of `uploadArtifacts`. -/
structure World where
  makeFullServerURL : String → String
  parseURLErr : String → Option String
  statErr : String → Option String
  absResult : String → Except String String
  globResult : String → Except String (List String)
  destURLErr : String → String → Option String
  uploadErr : String → String → Option String
  execOutcome : Nat → ExecOutcome
  uploadFuel : Nat

/-- Command AST (`protocal.BuildCommand`): name, string-keyed args,
working directory, runIfConfig, optional test guard (guard command and
expectation), and sub-commands. -/
inductive BuildCommand where
  | mk (name : String) (args : List (String × String)) (workingDirectory : String)
      (runIfConfig : String) (test : Option (BuildCommand × Bool))
      (subCommands : List BuildCommand)
deriving Repr

def BuildCommand.name : BuildCommand → String
  | .mk n _ _ _ _ _ => n

def BuildCommand.args : BuildCommand → List (String × String)
  | .mk _ a _ _ _ _ => a

def BuildCommand.workingDirectory : BuildCommand → String
  | .mk _ _ w _ _ _ => w

def BuildCommand.runIfConfig : BuildCommand → String
  | .mk _ _ _ r _ _ => r

def BuildCommand.test : BuildCommand → Option (BuildCommand × Bool)
  | .mk _ _ _ _ t _ => t

def BuildCommand.subCommands : BuildCommand → List BuildCommand
  | .mk _ _ _ _ _ sc => sc

@[simp] theorem BuildCommand.name_mk (n a w r t sc) :
    (BuildCommand.mk n a w r t sc).name = n := rfl

@[simp] theorem BuildCommand.args_mk (n a w r t sc) :
    (BuildCommand.mk n a w r t sc).args = a := rfl

@[simp] theorem BuildCommand.workingDirectory_mk (n a w r t sc) :
    (BuildCommand.mk n a w r t sc).workingDirectory = w := rfl

@[simp] theorem BuildCommand.runIfConfig_mk (n a w r t sc) :
    (BuildCommand.mk n a w r t sc).runIfConfig = r := rfl

@[simp] theorem BuildCommand.test_mk (n a w r t sc) :
    (BuildCommand.mk n a w r t sc).test = t := rfl

@[simp] theorem BuildCommand.subCommands_mk (n a w r t sc) :
    (BuildCommand.mk n a w r t sc).subCommands = sc := rfl

/-- Option-valued lookup in a string-keyed association list (a Go
`map[string]string` whose keys are unique). -/
def lookupKV (m : List (String × String)) (k : String) : Option String :=
  (m.find? (fun kv => kv.1 == k)).map (fun kv => kv.2)

/-- Go map indexing `m[k]`: the zero value `""` when the key is absent. -/
def lookupArg (m : List (String × String)) (k : String) : String :=
  (lookupKV m k).getD ""

/-- Go map assignment `m[k] = v` on an association list: replace the
binding of `k` if present, otherwise append it. -/
def setKV : List (String × String) → String → String → List (String × String)
  | [], k, v => [(k, v)]
  | kv :: rest, k, v => if kv.1 == k then (k, v) :: rest else kv :: setKV rest k v

/-- The loop `for key, value := range args { s.envs[key] = value }` of
`processExport`. -/
def overlayEnvs (m : List (String × String)) (args : List (String × String)) :
    List (String × String) :=
  args.foldl (fun acc kv => setKV acc kv.1 kv.2) m

/-- `BuildCommand.ExtractArgList(n)`: the positional list
`[args["0"], ..., args["n-1"]]`. -/
def extractArgList (args : List (String × String)) (n : Nat) : List String :=
  (List.range n).map (fun i => lookupArg args (toString i))

/-- Stand-in for Go's `unicode.ToUpper` (they agree on ASCII; no claim
depends on the precise uppercase mapping of any particular rune). -/
def unicodeToUpper : Char → Char := Char.toUpper

/-- `capitalize` from build_session.go: converts the string to a rune
slice and upper-cases index 0.  On the empty string the Go code indexes
an empty slice and panics, modelled as `none`. -/
def capitalize (str : String) : Option String :=
  match str.data with
  | [] => none
  | c :: rest => some (String.mk (unicodeToUpper c :: rest))

/-- Message of the Go runtime panic raised by `capitalize("")`. -/
def indexPanicMsg : String := "runtime error: index out of range [0] with length 0"

/-- Lexicographic comparison of Unicode code point sequences; for valid
UTF-8, byte-wise comparison of the encoded strings (what Go's
`sort.Strings` uses) coincides with this order. -/
def charListLe : List Char → List Char → Bool
  | [], _ => true
  | _ :: _, [] => false
  | a :: as, b :: bs =>
    if a.toNat < b.toNat then true
    else if b.toNat < a.toNat then false
    else charListLe as bs

/-- Go's string ordering: byte-wise comparison of the UTF-8 encodings,
equivalently lexicographic comparison of code points. -/
def strLe (a b : String) : Bool := charListLe a.data b.data

/-- One insertion step of the sort performed by `sort.Strings`. -/
def orderedInsertStr (a : String) : List String → List String
  | [] => [a]
  | b :: l => if strLe a b then a :: b :: l else b :: orderedInsertStr a l

/-- The effect of Go's `sort.Strings`: the input list rearranged into
ascending byte-wise order (modelled as an insertion sort, which agrees
with any correct sort on the resulting list). -/
def sortStrings : List String → List String
  | [] => []
  | b :: l => orderedInsertStr b (sortStrings l)

/-- Rendering of `fmt.Sprintf("%v", cmd.Args)` for a Go map (keys
printed in sorted order); only used inside error and log text, no claim
depends on the exact rendering. -/
def argsDisplay (args : List (String × String)) : String :=
  "map[" ++
    String.intercalate " "
      (sortStrings (args.map (fun kv => kv.1 ++ ":" ++ kv.2))) ++ "]"

/-- The characters of `p` after the last path separator. -/
def afterLastSlash (p : String) : List Char :=
  ((p.data.reverse.takeWhile (fun c => c ≠ '/'))).reverse

/-- Modelled from the spec: `basename(src)` — the final path element;
stands in for `os.FileInfo.Name()` of the stat'd source path (and the
library helper `filepath.Base`), which are not part of src/. -/
def baseName (p : String) : String :=
  String.mk (afterLastSlash p)

/-- Modelled from the spec: the directory part of `filepath.Split`,
everything up to and including the final path separator (the library
function is not part of src/). -/
def dirPart (p : String) : String :=
  String.mk (p.data.reverse.dropWhile (fun c => c ≠ '/')).reverse

/-- Go string slicing `s[a:b]` (on runes; artifact paths in the claims
are ASCII, where byte and rune indexing agree). -/
def sliceStr (s : String) (a b : Nat) : String :=
  String.mk ((s.data.drop a).take (b - a))

/-- Modelled from the spec: the repo utility `Join(sep, parts...)`
joins nonempty path parts with the separator; it is called from
`uploadArtifacts` but its definition is not part of src/. -/
def join2 (sep a b : String) : String :=
  if a = "" then b else if b = "" then a else a ++ sep ++ b

/-- Modelled from the spec: `filepath.Join(wd, src)` — joins the two
path fragments with a separator (path cleaning is irrelevant for the
claims); the library function is not part of src/. -/
def pathJoin (a b : String) : String := join2 "/" a b

/-- Modelled from the spec: `BaseDirOfPathWithWildcard` — the longest
wildcard-free prefix of the pattern ending at a path separator
(including that separator); the repo helper is not part of src/. -/
def baseDirOfPathWithWildcard (p : String) : String :=
  String.mk (((p.data.takeWhile (fun c => c ≠ '*')).reverse.dropWhile
    (fun c => c ≠ '/')).reverse)

/-- `destDescription` from build_session.go. -/
def destDescription (path : String) : String :=
  if path = "" then "[defaultRoot]" else path

/-- `fail` from build_session.go: if the session is not already failed,
write the error message to the console and set `buildStatus` to
`"failed"`; otherwise do nothing. -/
def fail (s : SessionState) (err : String) : SessionState :=
  if s.buildStatus ≠ "failed" then
    { s with console := s.console ++ [err], buildStatus := "failed" }
  else s

/-- `processStart`: parse the console URI (an error is returned before
any session mutation); on success bind the collaborators, record the
build id, reset `envs`, and set `buildStatus` to `"passed"`.  The
`SetState` calls write process-wide (not session) state and the bound
console/uploader collaborators carry no further session-visible data,
so they are not modelled. -/
def processStart (w : World) (args : List (String × String)) (s : SessionState) :
    SessionState × Option String :=
  match w.parseURLErr (w.makeFullServerURL (lookupArg args "consoleURI")) with
  | some e => (s, some e)
  | none =>
    ({ s with buildId := lookupArg args "buildId", envs := [],
              buildStatus := "passed" }, none)

/-- The sorted `export KEY=VALUE` lines built by `processExport` when
called with no args: one line per binding of `envs`, sorted with
`sort.Strings`. -/
def exportLines (envs : List (String × String)) : List String :=
  sortStrings (envs.map (fun kv => "export " ++ kv.1 ++ "=" ++ kv.2))

/-- `processExport`: with args, overlay them into `envs`; without args,
emit the sorted `export KEY=VALUE` lines to the console. -/
def processExport (args : List (String × String)) (s : SessionState) :
    SessionState × Option String :=
  if args.length > 0 then
    ({ s with envs := overlayEnvs s.envs args }, none)
  else
    ({ s with console := s.console ++ exportLines s.envs }, none)

/-- `processTest`: flag `-d` returns the error of `os.Stat(path)`;
any other flag returns "unknown test flag". -/
def processTest (w : World) (args : List (String × String)) (s : SessionState) :
    SessionState × Option String :=
  if lookupArg args "flag" = "-d" then (s, w.statErr (lookupArg args "path"))
  else (s, some "unknown test flag")

/-- `processEcho`: write every positional arg as a console line. -/
def processEcho (args : List (String × String)) (s : SessionState) :
    SessionState × Option String :=
  ({ s with console := s.console ++ extractArgList args args.length }, none)

/-- `processExec`: launch `args["command"]` with the positional
remainder as argv (the subprocess itself is external, so its behaviour
is resolved by the oracle, indexed by the number of execs run so far)
and select between its completion and the cancel channel.  If cancel
wins: the process is killed (a kill failure is logged to the console),
the cancel signal stays observable for all later commands, and a
canceled-error is returned.  Otherwise the run's own error is
returned. -/
def processExec (w : World) (args : List (String × String)) (s : SessionState) :
    SessionState × Option String :=
  match w.execOutcome s.execCount with
  | .finished e => ({ s with execCount := s.execCount + 1 }, e)
  | .canceled ke =>
    let s1 := { s with execCount := s.execCount + 1, canceled := true }
    let s2 := match ke with
      | some kmsg =>
        { s1 with console := s1.console ++
            ["kill command " ++ argsDisplay args ++ " failed, error: " ++ kmsg] }
      | none => s1
    (s2, some (argsDisplay args ++ " is canceled"))

/-- Inner loop of the wildcard branch of `uploadArtifacts`: for each
glob match, compute the destination from the match's directory with the
wildcard-free base stripped, recurse (via `up`), and stop at the first
error. -/
def uploadMatches
    (up : String → String → SessionState → SessionState × Option String) :
    List String → Nat → String → SessionState → SessionState × Option String
  | [], _, _, s => (s, none)
  | file :: rest, baseLen, destDir, s =>
    let fileDir := dirPart file
    let dest := join2 "/" destDir (sliceStr fileDir baseLen (fileDir.length - 1))
    match up file dest s with
    | (s1, some e) => (s1, some e)
    | (s1, none) => uploadMatches up rest baseLen destDir s1

/-- `uploadArtifacts`: a wildcard source is glob-expanded and each match
re-uploaded with the destination adjusted by the wildcard-free base;
otherwise the source is stat'd, an `Uploading artifacts from ... to ...`
line is logged, the destination path is `destDir/<basename>` (just
`<basename>` when `destDir` is empty), the destination URL is built,
and the upload is performed.  Fuel bounds the glob recursion. -/
def uploadArtifacts (w : World) :
    Nat → String → String → SessionState → SessionState × Option String
  | 0, _, _, s => (s, some "upload recursion limit reached")
  | fuel+1, source, destDir, s =>
    if source.data.contains '*' then
      match w.globResult source with
      | .error e => (s, some e)
      | .ok ms =>
        uploadMatches (uploadArtifacts w fuel) ms
          (baseDirOfPathWithWildcard source).length destDir s
    else
      match w.statErr source with
      | some e => (s, some e)
      | none =>
        let s1 := { s with console := s.console ++
          ["Uploading artifacts from " ++ source ++ " to " ++ destDescription destDir] }
        let destPath :=
          if destDir ≠ "" then join2 "/" destDir (baseName source)
          else baseName source
        match w.destURLErr destDir s1.buildId with
        | some e => (s1, some e)
        | none =>
          ({ s1 with uploads := s1.uploads ++ [(source, destPath)] },
           w.uploadErr source destPath)

/-- `processUploadArtifact`: make the working directory absolute, join
it with `args["src"]`, and hand off to `uploadArtifacts` with
`args["dest"]`. -/
def processUploadArtifact (w : World) (args : List (String × String))
    (wd : String) (s : SessionState) : SessionState × Option String :=
  match w.absResult wd with
  | .error e => (s, some e)
  | .ok awd =>
    uploadArtifacts w w.uploadFuel (pathJoin awd (lookupArg args "src"))
      (lookupArg args "dest") s

/-- `statusReport`: the report payload; its `result` field applies
`capitalize` to `buildStatus`, which panics (`none`) when the status is
still unset. -/
def statusReport (s : SessionState) (jobState : String) : Option StatusReport :=
  (capitalize s.buildStatus).map (fun r => ⟨s.buildId, jobState, r⟩)

/-- The loop of `processCompose`, with `p` the recursive interpreter:
`var err error; for _, sub := range cmd.SubCommands { if err =
s.process(sub); err != nil { s.fail(err) } }; return err`.  Note that
`err` is reassigned on every iteration, so the accumulator always holds
the most recent child's error. -/
def processSubs
    (p : BuildCommand → SessionState → Except String (SessionState × Option String)) :
    List BuildCommand → SessionState → Option String →
      Except String (SessionState × Option String)
  | [], s, err => .ok (s, err)
  | c :: rest, s, _ =>
    match p c s with
    | .error pa => .error pa
    | .ok (s1, some e) => processSubs p rest (fail s1 e) (some e)
    | .ok (s1, none) => processSubs p rest s1 none

/-- `processCompose`: run the sub-commands with the error variable
initially nil. -/
def processCompose
    (p : BuildCommand → SessionState → Except String (SessionState × Option String))
    (subs : List BuildCommand) (s : SessionState) :
    Except String (SessionState × Option String) :=
  processSubs p subs s none

/-- The `switch cmd.Name` dispatch of `process`, with `p` the recursive
interpreter used by `compose`. -/
def dispatch (w : World)
    (p : BuildCommand → SessionState → Except String (SessionState × Option String))
    (nm : String) (args : List (String × String)) (wd : String)
    (subs : List BuildCommand) (s : SessionState) :
    Except String (SessionState × Option String) :=
  match nm with
  | "start" => .ok (processStart w args s)
  | "compose" => processCompose p subs s
  | "export" => .ok (processExport args s)
  | "test" => .ok (processTest w args s)
  | "exec" => .ok (processExec w args s)
  | "echo" => .ok (processEcho args s)
  | "uploadArtifact" => .ok (processUploadArtifact w args wd s)
  | "reportCurrentStatus" | "reportCompleting" | "reportCompleted" =>
    match statusReport s (lookupArg args "jobState") with
    | none => .error indexPanicMsg
    | some r => .ok ({ s with sent := s.sent ++ [ReportMessage.mk nm r] }, none)
  | "end" => .ok (s, none)
  | other => .ok ({ s with console := s.console ++ ["TBI command: " ++ other] }, none)

/-- `process` from build_session.go: the per-command pipeline — ignore
everything once canceled; skip (not a failure) when `buildStatus` is
set and `runIfConfig` matches neither `"any"` nor the status; evaluate
the optional test guard and require `(guard error == nil) ==
expectation`; then dispatch on the command name.  Recursion (guard and
compose children) is bounded by the fuel. -/
def process (w : World) : Nat → BuildCommand → SessionState →
    Except String (SessionState × Option String)
  | 0 => fun _ _ => .error "recursion limit reached"
  | fuel+1 => fun cmd s =>
    match cmd with
    | .mk nm args wd ric test subs =>
      if s.canceled then .ok (s, none)
      else if s.buildStatus ≠ "" ∧ ric ≠ "any" ∧ ric ≠ s.buildStatus then
        .ok (s, none)
      else
        match test with
        | some (tc, exp) =>
          match process w fuel tc s with
          | .error pa => .error pa
          | .ok (s1, e1) =>
            if e1.isNone = exp then dispatch w (process w fuel) nm args wd subs s1
            else .ok (s1, none)
        | none => dispatch w (process w fuel) nm args wd subs s

/-- `Process` (the public entry point): run `process` and, when it
returns a non-nil error, record the failure with `fail` before handing
the error back.  (The deferred console close and done-channel close
carry no session-visible data.) -/
def ProcessTop (w : World) (fuel : Nat) (cmd : BuildCommand) (s : SessionState) :
    Except String (SessionState × Option String) :=
  match process w fuel cmd s with
  | .error pa => .error pa
  | .ok (s1, some e) => .ok (fail s1 e, some e)
  | .ok (s1, none) => .ok (s1, none)

/-! Shared helper lemmas and concrete test fixtures. -/

/-- A default oracle for concrete runs: URL completion is the identity,
nothing fails, every subprocess finishes cleanly. -/
def wBase : World :=
  { makeFullServerURL := fun u => u,
    parseURLErr := fun _ => none,
    statErr := fun _ => none,
    absResult := fun p => .ok p,
    globResult := fun _ => .ok [],
    destURLErr := fun _ _ => none,
    uploadErr := fun _ _ => none,
    execOutcome := fun _ => .finished none,
    uploadFuel := 8 }

theorem fail_buildStatus (s : SessionState) (e : String) :
    (fail s e).buildStatus = "failed" := by
  by_cases h : s.buildStatus = "failed" <;> simp [fail, h]

/-- C5: a command dispatched while `buildStatus` is set whose
`runIfConfig` is neither `"any"` nor the current status is skipped:
`process` returns nil and the session state is untouched (no console
write, no message, no mutation). -/
theorem c5_runIf_skip (w : World) (fuel : Nat) (cmd : BuildCommand) (s : SessionState)
    (hc : s.canceled = false) (h1 : s.buildStatus ≠ "")
    (h2 : cmd.runIfConfig ≠ "any") (h3 : cmd.runIfConfig ≠ s.buildStatus) :
    process w (fuel + 1) cmd s = .ok (s, none) := by
  cases cmd with
  | mk nm args wd ric test subs =>
    simp only [BuildCommand.runIfConfig_mk] at h2 h3
    simp [process, hc, h1, h2, h3]

theorem c5_runIf_skip_witness :
    process wBase 1 (BuildCommand.mk "echo" [("0", "hi")] "" "passed" none [])
        { initialState with buildStatus := "failed" } =
      .ok ({ initialState with buildStatus := "failed" }, none) :=
  c5_runIf_skip wBase 0 _ _ (by decide) (by decide) (by decide) (by decide)

/-- C6: `fail` writes the error message to the console and flips
`buildStatus` to `"failed"` exactly when the session is not already
failed; when it is already failed it is the identity, so repeated calls
are silent and keep `buildStatus` at `"failed"`. -/
theorem c6_fail_idempotent (s : SessionState) (e e' : String) :
    (s.buildStatus ≠ "failed" →
      fail s e = { s with console := s.console ++ [e], buildStatus := "failed" })
    ∧ (s.buildStatus = "failed" → fail s e = s)
    ∧ fail (fail s e) e' = fail s e := by
  refine ⟨fun h => by simp [fail, h], fun h => by simp [fail, h], ?_⟩
  by_cases h : s.buildStatus = "failed" <;> simp [fail, h]

theorem c6_fail_idempotent_witness :
    fail initialState "boom" =
      { initialState with console := ["boom"], buildStatus := "failed" }
    ∧ fail (fail initialState "boom") "late" = fail initialState "boom" :=
  ⟨(c6_fail_idempotent initialState "boom" "late").1 (by decide),
   (c6_fail_idempotent initialState "boom" "late").2.2⟩

/-- C7: when a command carries a test guard (and is neither canceled
nor skipped), `process` first evaluates the guard command; the main
dispatch runs exactly when `(guard error == nil) == expectation`, and
otherwise `process` returns nil (keeping whatever state the guard's
evaluation produced). -/
theorem c7_test_guard (w : World) (fuel : Nat) (nm : String)
    (args : List (String × String)) (wd ric : String) (tc : BuildCommand)
    (exp : Bool) (subs : List BuildCommand) (s : SessionState)
    (hc : s.canceled = false)
    (hskip : ¬(s.buildStatus ≠ "" ∧ ric ≠ "any" ∧ ric ≠ s.buildStatus)) :
    process w (fuel + 1) (.mk nm args wd ric (some (tc, exp)) subs) s =
      match process w fuel tc s with
      | .error pa => .error pa
      | .ok (s1, e1) =>
        if e1.isNone = exp then dispatch w (process w fuel) nm args wd subs s1
        else .ok (s1, none) := by
  simp [process, hc, hskip]

theorem c7_test_guard_witness :
    process wBase 2
        (BuildCommand.mk "echo" [("0", "ran")] "" "any"
          (some (BuildCommand.mk "end" [] "" "any" none [], true)) [])
        initialState =
      .ok ({ initialState with console := ["ran"] }, none) := by
  have h := c7_test_guard wBase 1 "echo" [("0", "ran")] "" "any"
    (BuildCommand.mk "end" [] "" "any" none []) true [] initialState
    (by decide) (by decide)
  rw [h]
  rfl

theorem lookupKV_nil (k : String) : lookupKV [] k = none := rfl

theorem lookupKV_cons (kv : String × String) (rest : List (String × String))
    (k : String) :
    lookupKV (kv :: rest) k =
      if kv.1 = k then some kv.2 else lookupKV rest k := by
  by_cases h : kv.1 = k <;> simp [lookupKV, List.find?_cons, h]

theorem lookupKV_not_mem (m : List (String × String)) (k : String)
    (h : k ∉ m.map Prod.fst) : lookupKV m k = none := by
  induction m with
  | nil => rfl
  | cons kv rest ih =>
    simp only [List.map_cons, List.mem_cons, not_or] at h
    rw [lookupKV_cons, if_neg (fun he => h.1 he.symm)]
    exact ih h.2

theorem lookupKV_setKV (m : List (String × String)) (k v k' : String) :
    lookupKV (setKV m k v) k' = if k' = k then some v else lookupKV m k' := by
  induction m with
  | nil => by_cases h : k' = k <;> simp [setKV, lookupKV_cons, lookupKV_nil, h, Ne.symm]
  | cons kv rest ih =>
    simp only [setKV]
    by_cases hkv : kv.1 = k
    · simp only [hkv, beq_self_eq_true, if_true]
      by_cases h : k' = k
      · simp [lookupKV_cons, h]
      · simp [lookupKV_cons, h, hkv, Ne.symm h]
    · rw [if_neg (by simpa using hkv)]
      by_cases h : k' = k
      · rw [lookupKV_cons, if_neg (h ▸ hkv), ih, if_pos h, if_pos h]
      · rw [lookupKV_cons, lookupKV_cons, ih]
        simp [h]

theorem lookupKV_overlay (args : List (String × String)) (m : List (String × String))
    (k : String) (hnd : (args.map Prod.fst).Nodup) :
    lookupKV (overlayEnvs m args) k =
      match lookupKV args k with
      | some v => some v
      | none => lookupKV m k := by
  induction args generalizing m with
  | nil => simp [overlayEnvs, lookupKV_nil]
  | cons kv rest ih =>
    simp only [List.map_cons, List.nodup_cons] at hnd
    have hstep : overlayEnvs m (kv :: rest) = overlayEnvs (setKV m kv.1 kv.2) rest := rfl
    rw [hstep, ih _ hnd.2, lookupKV_cons]
    by_cases h : kv.1 = k
    · have hk : lookupKV rest k = none :=
        lookupKV_not_mem rest k (fun hmem => hnd.1 (h ▸ hmem))
      simp [h, hk, lookupKV_setKV]
    · by_cases hr : lookupKV rest k = none
      · simp only [h, if_false, hr, lookupKV_setKV]
        rw [if_neg (fun he => h he.symm)]
      · obtain ⟨v, hv⟩ := Option.ne_none_iff_exists'.mp hr
        simp [h, hv]

theorem charListLe_total : ∀ xs ys, charListLe xs ys = true ∨ charListLe ys xs = true := by
  intro xs
  induction xs with
  | nil => intro ys; left; rfl
  | cons x xs ih =>
    intro ys
    cases ys with
    | nil => right; rfl
    | cons y ys =>
      simp only [charListLe]
      by_cases h1 : x.toNat < y.toNat
      · left; simp [h1]
      · by_cases h2 : y.toNat < x.toNat
        · right; simp [h1, h2]
        · rcases ih ys with h | h
          · left; simp [h1, h2, h]
          · right; simp [h1, h2, h]

theorem charListLe_trans :
    ∀ xs ys zs, charListLe xs ys = true → charListLe ys zs = true →
      charListLe xs zs = true := by
  intro xs
  induction xs with
  | nil => intro ys zs _ _; rfl
  | cons x xs ih =>
    intro ys zs h1 h2
    cases ys with
    | nil => simp [charListLe] at h1
    | cons y ys =>
      cases zs with
      | nil => simp [charListLe] at h2
      | cons z zs =>
        simp only [charListLe] at h1 h2 ⊢
        by_cases hxy : x.toNat < y.toNat
        · by_cases hyz : y.toNat < z.toNat
          · simp [show x.toNat < z.toNat by omega]
          · by_cases hzy : z.toNat < y.toNat
            · simp [hyz, hzy] at h2
            · simp [show x.toNat < z.toNat by omega]
        · by_cases hyx : y.toNat < x.toNat
          · simp [hxy, hyx] at h1
          · by_cases hyz : y.toNat < z.toNat
            · simp [show x.toNat < z.toNat by omega]
            · by_cases hzy : z.toNat < y.toNat
              · simp [hyz, hzy] at h2
              · have h1' : charListLe xs ys = true := by simpa [hxy, hyx] using h1
                have h2' : charListLe ys zs = true := by simpa [hyz, hzy] using h2
                simp [show ¬x.toNat < z.toNat by omega, show ¬z.toNat < x.toNat by omega,
                  ih ys zs h1' h2']

theorem strLe_total (a b : String) : strLe a b = true ∨ strLe b a = true :=
  charListLe_total a.data b.data

theorem strLe_trans {a b c : String} (h1 : strLe a b = true) (h2 : strLe b c = true) :
    strLe a c = true :=
  charListLe_trans a.data b.data c.data h1 h2

theorem orderedInsertStr_perm (a : String) :
    ∀ l, (orderedInsertStr a l).Perm (a :: l) := by
  intro l
  induction l with
  | nil => simp [orderedInsertStr]
  | cons b l ih =>
    simp only [orderedInsertStr]
    by_cases h : strLe a b
    · simp [h]
    · rw [if_neg h]
      exact (ih.cons b).trans (List.Perm.swap a b l)

theorem mem_orderedInsertStr {x a : String} {l : List String}
    (h : x ∈ orderedInsertStr a l) : x = a ∨ x ∈ l := by
  have := (orderedInsertStr_perm a l).mem_iff.mp h
  simpa using this

theorem sorted_orderedInsertStr (a : String) :
    ∀ l, List.Sorted (fun u v => strLe u v = true) l →
      List.Sorted (fun u v => strLe u v = true) (orderedInsertStr a l) := by
  intro l
  induction l with
  | nil => intro _; simp [orderedInsertStr]
  | cons b l ih =>
    intro hs
    rw [List.sorted_cons] at hs
    simp only [orderedInsertStr]
    by_cases h : strLe a b
    · rw [if_pos h, List.sorted_cons]
      refine ⟨?_, List.sorted_cons.mpr hs⟩
      intro y hy
      rcases List.mem_cons.mp hy with rfl | hy
      · exact h
      · exact strLe_trans h (hs.1 y hy)
    · rw [if_neg h, List.sorted_cons]
      refine ⟨?_, ih hs.2⟩
      intro y hy
      rcases mem_orderedInsertStr hy with rfl | hy
      · rcases strLe_total y b with hh | hh
        · exact absurd hh h
        · exact hh
      · exact hs.1 y hy

theorem sorted_sortStrings :
    ∀ l, List.Sorted (fun u v => strLe u v = true) (sortStrings l) := by
  intro l
  induction l with
  | nil => simp [sortStrings]
  | cons b l ih => exact sorted_orderedInsertStr b _ ih

theorem sortStrings_perm : ∀ l, (sortStrings l).Perm l := by
  intro l
  induction l with
  | nil => simp [sortStrings]
  | cons b l ih =>
    simp only [sortStrings]
    exact (orderedInsertStr_perm b _).trans (ih.cons b)

/-- C8: `processExport` with a non-empty args map overlays every pair
into `envs` (later keys overwrite earlier bindings) and writes nothing
to the console; with an empty args map it leaves `envs` alone and
writes exactly one `export KEY=VALUE` line per binding, the emitted
lines being lexicographically sorted (byte-wise string order, as used
by Go's `sort.Strings`). -/
theorem c8_export (args : List (String × String)) (s : SessionState)
    (hnd : (args.map Prod.fst).Nodup) :
    (args ≠ [] →
      processExport args s = ({ s with envs := overlayEnvs s.envs args }, none)
      ∧ ∀ k, lookupKV (overlayEnvs s.envs args) k =
          match lookupKV args k with
          | some v => some v
          | none => lookupKV s.envs k)
    ∧ (args = [] →
      processExport args s =
        ({ s with console := s.console ++ exportLines s.envs }, none)
      ∧ List.Sorted (fun u v => strLe u v = true) (exportLines s.envs)
      ∧ (exportLines s.envs).Perm
          (s.envs.map (fun kv => "export " ++ kv.1 ++ "=" ++ kv.2))) := by
  constructor
  · intro hne
    refine ⟨?_, fun k => lookupKV_overlay args s.envs k hnd⟩
    have hlen : args.length > 0 := List.length_pos.mpr hne
    simp [processExport, hlen]
  · intro he
    subst he
    refine ⟨by simp [processExport], ?_, ?_⟩
    · exact sorted_sortStrings _
    · exact sortStrings_perm _

theorem c8_export_witness :
    ([("B", "2"), ("A", "1")] ≠ ([] : List (String × String))
      ∧ processExport [("B", "2"), ("A", "1")] initialState =
          ({ initialState with envs := [("B", "2"), ("A", "1")] }, none)
      ∧ lookupKV (overlayEnvs initialState.envs [("B", "2"), ("A", "1")]) "A" = some "1")
    ∧ (processExport [] { initialState with envs := [("B", "2"), ("A", "1")] } =
        ({ initialState with
            envs := [("B", "2"), ("A", "1")]
            console := ["export A=1", "export B=2"] }, none)) := by
  have h1 := (c8_export [("B", "2"), ("A", "1")] initialState (by decide)).1 (by decide)
  have h2 := (c8_export [] { initialState with envs := [("B", "2"), ("A", "1")] }
    (by decide)).2 rfl
  refine ⟨⟨by decide, ?_, ?_⟩, ?_⟩
  · rw [h1.1]; rfl
  · rw [h1.2 "A"]; rfl
  · rw [h2.1]; rfl

/-- C9: for a wildcard-free source that stats successfully, the upload
destination path is `destDir ++ "/" ++ basename(source)` when `destDir`
is non-empty and `basename(source)` otherwise, and the console line
logged before the upload renders an empty `destDir` as the literal
`"[defaultRoot]"` and a non-empty one as itself. -/
theorem c9_upload_file (w : World) (n : Nat) (source destDir : String)
    (s : SessionState)
    (hw : source.data.contains '*' = false)
    (hstat : w.statErr source = none)
    (hurl : w.destURLErr destDir s.buildId = none)
    (hbase : baseName source ≠ "") :
    uploadArtifacts w (n + 1) source destDir s =
      ({ s with
          console := s.console ++
            ["Uploading artifacts from " ++ source ++ " to " ++
              destDescription destDir]
          uploads := s.uploads ++
            [(source,
              if destDir = "" then baseName source
              else destDir ++ "/" ++ baseName source)] },
       w.uploadErr source
         (if destDir = "" then baseName source
          else destDir ++ "/" ++ baseName source))
    ∧ destDescription "" = "[defaultRoot]"
    ∧ (destDir ≠ "" → destDescription destDir = destDir) := by
  refine ⟨?_, rfl, fun hd => by simp [destDescription, hd]⟩
  have hw' : '*' ∉ source.data := by simpa using hw
  by_cases hd : destDir = ""
  · subst hd
    simp [uploadArtifacts, hw', hstat, hurl, join2]
  · simp [uploadArtifacts, hw', hstat, hurl, join2, hd, hbase]

theorem c9_upload_file_witness :
    uploadArtifacts wBase 1 "wd/src/4.txt" "dest/subdir" initialState =
      ({ initialState with
          console := ["Uploading artifacts from wd/src/4.txt to dest/subdir"]
          uploads := [("wd/src/4.txt", "dest/subdir/4.txt")] }, none)
    ∧ destDescription "" = "[defaultRoot]" := by
  have h := c9_upload_file wBase 0 "wd/src/4.txt" "dest/subdir" initialState
    (by decide) (by decide) (by decide) (by decide)
  exact ⟨by rw [h.1]; rfl, h.2.1⟩

/-- C10: `capitalize` is not total: on the empty string it indexes an
empty rune slice and panics (`none`), while on a non-empty string it
upper-cases exactly the first rune and leaves the rest unchanged;
consequently any report command (`reportCurrentStatus`,
`reportCompleting`, `reportCompleted`) processed before `start` has set
`buildStatus` makes `statusReport` call `capitalize("")`, and the
interpreter panics instead of returning an error. -/
theorem c10_capitalize_report_panic :
    capitalize "" = none
    ∧ (∀ c cs, capitalize (String.mk (c :: cs)) =
        some (String.mk (unicodeToUpper c :: cs)))
    ∧ (∀ (w : World) (f : Nat) (nm : String) (args : List (String × String))
        (wd ric : String) (subs : List BuildCommand) (s : SessionState),
        (nm = "reportCurrentStatus" ∨ nm = "reportCompleting" ∨
          nm = "reportCompleted") →
        s.canceled = false → s.buildStatus = "" →
        process w (f + 1) (.mk nm args wd ric none subs) s =
          .error indexPanicMsg) := by
  refine ⟨rfl, fun c cs => rfl, ?_⟩
  intro w f nm args wd ric subs s hnm hc hst
  rcases hnm with rfl | rfl | rfl <;>
    simp [process, dispatch, statusReport, hc, hst,
      show capitalize "" = none from rfl]

theorem c10_capitalize_report_panic_witness :
    process wBase 1 (BuildCommand.mk "reportCompleted" [] "" "any" none [])
        initialState =
      .error indexPanicMsg :=
  c10_capitalize_report_panic.2.2 wBase 0 "reportCompleted" [] "" "any" []
    initialState (Or.inr (Or.inr rfl)) rfl rfl

/-- Per-child outcomes of a `compose` loop: for each child, the session
state after its processing (with `fail` applied when it returned an
error, exactly as the loop body does) and the child's returned error.
`none` when some child panics. -/
def childTrace
    (p : BuildCommand → SessionState → Except String (SessionState × Option String)) :
    List BuildCommand → SessionState →
      Option (List (SessionState × Option String))
  | [], _ => some []
  | c :: rest, s =>
    match p c s with
    | .error _ => none
    | .ok (s1, some e) =>
      (childTrace p rest (fail s1 e)).map (fun tr => (fail s1 e, some e) :: tr)
    | .ok (s1, none) =>
      (childTrace p rest s1).map (fun tr => (s1, none) :: tr)

theorem childTrace_length
    (p : BuildCommand → SessionState → Except String (SessionState × Option String)) :
    ∀ subs s tr, childTrace p subs s = some tr → tr.length = subs.length := by
  intro subs
  induction subs with
  | nil => intro s tr h; simp [childTrace] at h; subst h; rfl
  | cons c rest ih =>
    intro s tr h
    cases hp : p c s with
    | error pa =>
      simp only [childTrace, hp] at h
      exact Option.noConfusion h
    | ok pr =>
      obtain ⟨s1, e1⟩ := pr
      cases e1 with
      | some e =>
        cases htr : childTrace p rest (fail s1 e) with
        | none =>
          simp only [childTrace, hp, htr, Option.map_none'] at h
          exact Option.noConfusion h
        | some tr' =>
          simp only [childTrace, hp, htr, Option.map_some', Option.some.injEq] at h
          subst h
          simp [ih _ _ htr]
      | none =>
        cases htr : childTrace p rest s1 with
        | none =>
          simp only [childTrace, hp, htr, Option.map_none'] at h
          exact Option.noConfusion h
        | some tr' =>
          simp only [childTrace, hp, htr, Option.map_some', Option.some.injEq] at h
          subst h
          simp [ih _ _ htr]

theorem processSubs_eq_trace
    (p : BuildCommand → SessionState → Except String (SessionState × Option String)) :
    ∀ subs s acc tr, childTrace p subs s = some tr →
      processSubs p subs s acc =
        .ok ((tr.map Prod.fst).getLastD s, (tr.map Prod.snd).getLastD acc) := by
  intro subs
  induction subs with
  | nil =>
    intro s acc tr h
    simp [childTrace] at h
    subst h
    simp [processSubs]
  | cons c rest ih =>
    intro s acc tr h
    cases hp : p c s with
    | error pa =>
      simp only [childTrace, hp] at h
      exact Option.noConfusion h
    | ok pr =>
      obtain ⟨s1, e1⟩ := pr
      cases e1 with
      | some e =>
        cases htr : childTrace p rest (fail s1 e) with
        | none =>
          simp only [childTrace, hp, htr, Option.map_none'] at h
          exact Option.noConfusion h
        | some tr' =>
          simp only [childTrace, hp, htr, Option.map_some', Option.some.injEq] at h
          subst h
          simp only [processSubs, hp]
          rw [ih _ _ _ htr]
          simp only [List.map_cons, List.getLastD_cons]
      | none =>
        cases htr : childTrace p rest s1 with
        | none =>
          simp only [childTrace, hp, htr, Option.map_none'] at h
          exact Option.noConfusion h
        | some tr' =>
          simp only [childTrace, hp, htr, Option.map_some', Option.some.injEq] at h
          subst h
          simp only [processSubs, hp]
          rw [ih _ _ _ htr]
          simp only [List.map_cons, List.getLastD_cons]

/-- C1 (amended): `processCompose` iterates the sub-commands in order
(every child contributes exactly one trace entry), applies `fail` after
each child that returns a non-nil error and continues with the
remaining children; but because the loop reassigns its error variable
on every iteration, the error it returns is that of the *last child
processed* — nil when there are no children or when the final child
succeeded, even if an earlier child failed. -/
theorem c1_compose_last_child_error
    (p : BuildCommand → SessionState → Except String (SessionState × Option String))
    (subs : List BuildCommand) (s : SessionState)
    (tr : List (SessionState × Option String))
    (h : childTrace p subs s = some tr) :
    processCompose p subs s =
      .ok ((tr.map Prod.fst).getLastD s, (tr.map Prod.snd).getLastD none)
    ∧ tr.length = subs.length :=
  ⟨processSubs_eq_trace p subs s none tr h, childTrace_length p subs s tr h⟩

/-- Oracle for the compose counterexample: the path `"missing"` does
not exist, everything else succeeds. -/
def wC1 : World :=
  { wBase with statErr := fun p =>
      if p = "missing" then some "stat missing: no such file or directory"
      else none }

def c1failChild : BuildCommand :=
  .mk "test" [("flag", "-d"), ("path", "missing")] "" "any" none []

def c1okChild : BuildCommand :=
  .mk "echo" [("0", "hello")] "" "any" none []

def c1state : SessionState := { initialState with buildStatus := "passed" }

/-- C1 counterexample: a compose whose first child fails (marking the
session failed) and whose second child succeeds returns a *nil* error,
although the last failing child's error is non-nil — refuting the claim
that the error returned is that of the last failing child. -/
theorem c1_compose_cex :
    (processCompose (process wC1 2) [c1failChild, c1okChild] c1state).toOption.map
        (fun pr => (pr.2, pr.1.buildStatus)) = some (none, "failed") := by
  rfl

def c1trace : List (SessionState × Option String) :=
  [({ initialState with
      buildStatus := "failed"
      console := ["stat missing: no such file or directory"] },
    some "stat missing: no such file or directory"),
   ({ initialState with
      buildStatus := "failed"
      console := ["stat missing: no such file or directory", "hello"] },
    none)]

theorem c1_compose_last_child_error_witness :
    childTrace (process wC1 2) [c1failChild, c1okChild] c1state = some c1trace
    ∧ (processCompose (process wC1 2) [c1failChild, c1okChild] c1state =
        .ok ((c1trace.map Prod.fst).getLastD c1state,
             (c1trace.map Prod.snd).getLastD none)
       ∧ c1trace.length = [c1failChild, c1okChild].length) :=
  ⟨by rfl,
   c1_compose_last_child_error (process wC1 2) [c1failChild, c1okChild] c1state
     c1trace (by rfl)⟩

/-- Oracle for the cancellation counterexample: every exec is
interrupted by the cancel signal (and the kill succeeds). -/
def wC2 : World := { wBase with execOutcome := fun _ => .canceled none }

def c2start : BuildCommand :=
  .mk "start" [("consoleURI", "c"), ("buildId", "b")] "" "any" none []

def c2exec : BuildCommand :=
  .mk "exec" [("command", "sleep"), ("0", "60")] "" "passed" none []

def c2report : BuildCommand :=
  .mk "reportCompleted" [("jobState", "Completed")] "" "any" none []

def c2session : BuildCommand :=
  .mk "compose" [] "" "any" none [c2start, c2exec, c2report]

/-- C2 counterexample: a session `compose [start, exec, reportCompleted]`
whose exec is canceled ends with `buildStatus = "failed"` (the
canceled-error is fed to `fail` by the compose loop), not with its last
known value `"passed"`, and the subsequent report command is ignored, so
no status report carrying "Passed" (or anything else) is sent. -/
theorem c2_cancel_cex :
    (process wC2 3 c2session initialState).toOption.map
        (fun pr => (pr.1.buildStatus, pr.1.sent, pr.2)) =
      some ("failed", [], none) := by
  rfl

/-- C2 (amended): when the cancel signal wins the race during an exec,
the runner returns a canceled-error and the cancel signal stays
observable; feeding that error to `fail` (as `processCompose` and the
top-level `Process` do with any non-nil error) sets `buildStatus` to
`"failed"`; and every command processed after cancellation — including
the status reports — is ignored, so the canceled session sends no
further report at all. -/
theorem c2_cancel_marks_failed (w : World) (fuel f2 : Nat)
    (argsE : List (String × String)) (wd : String) (s : SessionState)
    (cmd2 : BuildCommand) (s2 : SessionState)
    (hc : s.canceled = false) (hst : s.buildStatus = "passed")
    (hexec : w.execOutcome s.execCount = .canceled none)
    (hs2 : s2.canceled = true) :
    process w (fuel + 1) (.mk "exec" argsE wd "passed" none []) s =
      .ok ({ s with execCount := s.execCount + 1, canceled := true },
           some (argsDisplay argsE ++ " is canceled"))
    ∧ (fail { s with execCount := s.execCount + 1, canceled := true }
         (argsDisplay argsE ++ " is canceled")).buildStatus = "failed"
    ∧ process w (f2 + 1) cmd2 s2 = .ok (s2, none) := by
  refine ⟨?_, fail_buildStatus _ _, ?_⟩
  · simp [process, dispatch, processExec, hc, hst, hexec]
  · cases cmd2 with
    | mk nm args wd2 ric t subs => simp [process, hs2]

theorem c2_cancel_marks_failed_witness :
    process wC2 1
        (BuildCommand.mk "exec" [("command", "sleep"), ("0", "60")] "" "passed"
          none [])
        { initialState with buildStatus := "passed" } =
      .ok ({ initialState with
              buildStatus := "passed"
              execCount := 1
              canceled := true },
           some (argsDisplay [("command", "sleep"), ("0", "60")] ++ " is canceled"))
    ∧ (fail { initialState with
              buildStatus := "passed"
              execCount := 1
              canceled := true }
         (argsDisplay [("command", "sleep"), ("0", "60")] ++ " is canceled")).buildStatus
        = "failed"
    ∧ process wC2 1 (BuildCommand.mk "end" [] "" "any" none [])
        { initialState with canceled := true } =
      .ok ({ initialState with canceled := true }, none) :=
  c2_cancel_marks_failed wC2 0 0 [("command", "sleep"), ("0", "60")] ""
    { initialState with buildStatus := "passed" }
    (BuildCommand.mk "end" [] "" "any" none [])
    { initialState with canceled := true } rfl rfl rfl rfl

mutual

/-- Does this command tree contain no `start` node — neither as its own
name, nor inside its test guard, nor among its sub-commands? -/
def noStart : BuildCommand → Bool
  | .mk nm _ _ _ t subs => nm != "start" && noStartTest t && noStartList subs

def noStartTest : Option (BuildCommand × Bool) → Bool
  | none => true
  | some (tc, _) => noStart tc

def noStartList : List BuildCommand → Bool
  | [] => true
  | c :: rest => noStart c && noStartList rest

end

theorem noStartList_mem :
    ∀ {subs : List BuildCommand} {c : BuildCommand},
      noStartList subs = true → c ∈ subs → noStart c = true := by
  intro subs
  induction subs with
  | nil => intro c _ hm; cases hm
  | cons d rest ih =>
    intro c hl hm
    simp only [noStartList, Bool.and_eq_true] at hl
    rcases List.mem_cons.mp hm with rfl | hm
    · exact hl.1
    · exact ih hl.2 hm

theorem processExport_fst_buildStatus (args : List (String × String))
    (s : SessionState) : (processExport args s).1.buildStatus = s.buildStatus := by
  by_cases h : args.length > 0 <;> simp [processExport, h]

theorem processTest_fst_buildStatus (w : World) (args : List (String × String))
    (s : SessionState) : (processTest w args s).1.buildStatus = s.buildStatus := by
  by_cases h : lookupArg args "flag" = "-d" <;> simp [processTest, h]

theorem processExec_fst_buildStatus (w : World) (args : List (String × String))
    (s : SessionState) : (processExec w args s).1.buildStatus = s.buildStatus := by
  cases h : w.execOutcome s.execCount with
  | finished e => simp [processExec, h]
  | canceled ke => cases ke <;> simp [processExec, h]

theorem uploadMatches_fst_buildStatus
    (up : String → String → SessionState → SessionState × Option String)
    (H : ∀ f d t, ((up f d t).1).buildStatus = t.buildStatus) :
    ∀ (ms : List String) (bl : Nat) (dd : String) (t : SessionState),
      ((uploadMatches up ms bl dd t).1).buildStatus = t.buildStatus := by
  intro ms
  induction ms with
  | nil => intro bl dd t; rfl
  | cons file rest ih =>
    intro bl dd t
    simp only [uploadMatches]
    split
    · rename_i t1 e1 heq
      have h1 := H file
        (join2 "/" dd (sliceStr (dirPart file) bl ((dirPart file).length - 1))) t
      rw [heq] at h1
      exact h1
    · rename_i t1 heq
      have h1 := H file
        (join2 "/" dd (sliceStr (dirPart file) bl ((dirPart file).length - 1))) t
      rw [heq] at h1
      rw [ih _ _ _]
      exact h1

theorem uploadArtifacts_fst_buildStatus (w : World) :
    ∀ (fuel : Nat) (src dd : String) (t : SessionState),
      ((uploadArtifacts w fuel src dd t).1).buildStatus = t.buildStatus := by
  intro fuel
  induction fuel with
  | zero => intro src dd t; rfl
  | succ f ih =>
    intro src dd t
    simp only [uploadArtifacts]
    split
    · split
      · rfl
      · exact uploadMatches_fst_buildStatus _ (fun a b c => ih a b c) _ _ _ _
    · split
      · rfl
      · split
        · rfl
        · rfl

theorem processUploadArtifact_fst_buildStatus (w : World)
    (args : List (String × String)) (wd : String) (s : SessionState) :
    (processUploadArtifact w args wd s).1.buildStatus = s.buildStatus := by
  simp only [processUploadArtifact]
  split
  · rfl
  · exact uploadArtifacts_fst_buildStatus w _ _ _ _

theorem processSubs_keeps_failed
    (p : BuildCommand → SessionState → Except String (SessionState × Option String)) :
    ∀ (subs : List BuildCommand) (s : SessionState) (acc : Option String)
      (s' : SessionState) (e : Option String),
      (∀ c ∈ subs, ∀ t t' e', t.buildStatus = "failed" →
        p c t = .ok (t', e') → t'.buildStatus = "failed") →
      s.buildStatus = "failed" → processSubs p subs s acc = .ok (s', e) →
      s'.buildStatus = "failed" := by
  intro subs
  induction subs with
  | nil =>
    intro s acc s' e _ hs h
    simp only [processSubs, Except.ok.injEq, Prod.mk.injEq] at h
    rw [← h.1]
    exact hs
  | cons c rest ih =>
    intro s acc s' e H hs h
    cases hp : p c s with
    | error pa =>
      simp only [processSubs, hp] at h
      exact Except.noConfusion h
    | ok pr =>
      obtain ⟨s1, e1⟩ := pr
      have hs1 : s1.buildStatus = "failed" :=
        H c (List.mem_cons_self c rest) s s1 e1 hs hp
      cases e1 with
      | some e0 =>
        simp only [processSubs, hp] at h
        exact ih (fail s1 e0) (some e0) s' e
          (fun d hd => H d (List.mem_cons_of_mem c hd)) (fail_buildStatus s1 e0) h
      | none =>
        simp only [processSubs, hp] at h
        exact ih s1 none s' e
          (fun d hd => H d (List.mem_cons_of_mem c hd)) hs1 h

theorem dispatch_keeps_failed (w : World)
    (p : BuildCommand → SessionState → Except String (SessionState × Option String))
    (nm : String) (args : List (String × String)) (wd : String)
    (subs : List BuildCommand) (s s' : SessionState) (e : Option String)
    (Hsubs : ∀ c ∈ subs, ∀ t t' e', t.buildStatus = "failed" →
        p c t = .ok (t', e') → t'.buildStatus = "failed")
    (hnm : nm ≠ "start") (hs : s.buildStatus = "failed")
    (hd : dispatch w p nm args wd subs s = .ok (s', e)) :
    s'.buildStatus = "failed" := by
  unfold dispatch at hd
  split at hd
  · exact absurd rfl hnm
  · exact processSubs_keeps_failed p subs s none s' e Hsubs hs hd
  · simp only [Except.ok.injEq] at hd
    have h1 := processExport_fst_buildStatus args s
    rw [hd] at h1
    exact h1.trans hs
  · simp only [Except.ok.injEq] at hd
    have h1 := processTest_fst_buildStatus w args s
    rw [hd] at h1
    exact h1.trans hs
  · simp only [Except.ok.injEq] at hd
    have h1 := processExec_fst_buildStatus w args s
    rw [hd] at h1
    exact h1.trans hs
  · simp only [Except.ok.injEq] at hd
    have h1 : (processEcho args s).1.buildStatus = s.buildStatus := rfl
    rw [hd] at h1
    exact h1.trans hs
  · simp only [Except.ok.injEq] at hd
    have h1 := processUploadArtifact_fst_buildStatus w args wd s
    rw [hd] at h1
    exact h1.trans hs
  · split at hd
    · exact Except.noConfusion hd
    · simp only [Except.ok.injEq, Prod.mk.injEq] at hd
      rw [← hd.1]
      exact hs
  · split at hd
    · exact Except.noConfusion hd
    · simp only [Except.ok.injEq, Prod.mk.injEq] at hd
      rw [← hd.1]
      exact hs
  · split at hd
    · exact Except.noConfusion hd
    · simp only [Except.ok.injEq, Prod.mk.injEq] at hd
      rw [← hd.1]
      exact hs
  · simp only [Except.ok.injEq, Prod.mk.injEq] at hd
    rw [← hd.1]
    exact hs
  · simp only [Except.ok.injEq, Prod.mk.injEq] at hd
    rw [← hd.1]
    exact hs

/-- C3 (amended): `buildStatus` is monotone with respect to failure for
every command tree that contains no `start` node: once `"failed"`, it
stays `"failed"`.  The exception forced by the counterexample is
`start` itself — `processStart` unconditionally resets `buildStatus` to
`"passed"`, and a start command whose `runIfConfig` is `"failed"` or
`"any"` passes the skip filter of a failed session, so a later start
does return the status to `"passed"`. -/
theorem c3_failed_monotone (w : World) :
    ∀ (fuel : Nat) (cmd : BuildCommand) (s s' : SessionState) (e : Option String),
      noStart cmd = true → s.buildStatus = "failed" →
      process w fuel cmd s = .ok (s', e) → s'.buildStatus = "failed" := by
  intro fuel
  induction fuel with
  | zero =>
    intro cmd s s' e _ _ h
    simp [process] at h
  | succ f ih =>
    intro cmd s s' e hns hs h
    cases cmd with
    | mk nm args wd ric t subs =>
      simp only [noStart, Bool.and_eq_true, bne_iff_ne] at hns
      obtain ⟨⟨hnm, hnt⟩, hnl⟩ := hns
      simp only [process] at h
      by_cases hc : s.canceled
      · rw [if_pos hc] at h
        simp only [Except.ok.injEq, Prod.mk.injEq] at h
        rw [← h.1]
        exact hs
      · rw [if_neg hc] at h
        by_cases hskip : s.buildStatus ≠ "" ∧ ric ≠ "any" ∧ ric ≠ s.buildStatus
        · rw [if_pos hskip] at h
          simp only [Except.ok.injEq, Prod.mk.injEq] at h
          rw [← h.1]
          exact hs
        · rw [if_neg hskip] at h
          cases t with
          | none =>
            exact dispatch_keeps_failed w (process w f) nm args wd subs s s' e
              (fun c hm t t' e' ht hp => ih c t t' e' (noStartList_mem hnl hm) ht hp)
              hnm hs h
          | some pr =>
            obtain ⟨tc, exp⟩ := pr
            have hntc : noStart tc = true := by
              simpa [noStartTest] using hnt
            cases hguard : process w f tc s with
            | error pa =>
              simp only [hguard] at h
              exact Except.noConfusion h
            | ok gpr =>
              obtain ⟨s1, e1⟩ := gpr
              have hs1 : s1.buildStatus = "failed" := ih tc s s1 e1 hntc hs hguard
              simp only [hguard] at h
              by_cases hif : e1.isNone = exp
              · rw [if_pos hif] at h
                exact dispatch_keeps_failed w (process w f) nm args wd subs s1 s' e
                  (fun c hm t t' e' ht hp => ih c t t' e' (noStartList_mem hnl hm) ht hp)
                  hnm hs1 h
              · rw [if_neg hif] at h
                simp only [Except.ok.injEq, Prod.mk.injEq] at h
                rw [← h.1]
                exact hs1

/-- Oracle for the monotonicity counterexample: no path exists, so the
`test -d` child fails. -/
def wC3 : World :=
  { wBase with statErr := fun _ => some "stat bad: no such file or directory" }

def c3start1 : BuildCommand :=
  .mk "start" [("consoleURI", "c"), ("buildId", "b1")] "" "any" none []

def c3fail : BuildCommand :=
  .mk "test" [("flag", "-d"), ("path", "bad")] "" "any" none []

def c3start2 : BuildCommand :=
  .mk "start" [("consoleURI", "c"), ("buildId", "b2")] "" "failed" none []

def c3seq : BuildCommand :=
  .mk "compose" [] "" "any" none [c3start1, c3fail, c3start2]

def c3seqPrefix : BuildCommand :=
  .mk "compose" [] "" "any" none [c3start1, c3fail]

/-- C3 counterexample: after `start; (failing test)` the status is
`"failed"`, yet appending a second `start` whose `runIfConfig` is
`"failed"` brings the session's final status back to `"passed"` — the
claimed monotonicity (explicitly including start commands with
runIfConfig `"failed"` or `"any"`) does not hold. -/
theorem c3_monotone_cex :
    (process wC3 2 c3seq initialState).toOption.map
        (fun pr => pr.1.buildStatus) = some "passed"
    ∧ (process wC3 2 c3seqPrefix initialState).toOption.map
        (fun pr => pr.1.buildStatus) = some "failed" :=
  ⟨rfl, rfl⟩

def c3failedState : SessionState := { initialState with buildStatus := "failed" }

theorem c3_failed_monotone_witness :
    ({ initialState with
        buildStatus := "failed"
        console := ["hi"] } : SessionState).buildStatus = "failed" :=
  c3_failed_monotone wBase 1
    (BuildCommand.mk "echo" [("0", "hi")] "" "failed" none [])
    c3failedState
    { initialState with
        buildStatus := "failed"
        console := ["hi"] }
    none (by rfl) rfl (by rfl)

/-- Oracle for the pre-start counterexample: the path `x` does not
exist. -/
def wC4 : World :=
  { wBase with statErr := fun _ => some "stat x: no such file or directory" }

def c4preStartTest : BuildCommand :=
  .mk "test" [("flag", "-d"), ("path", "x")] "" "any" none []

def c4startA : BuildCommand :=
  .mk "start" [("consoleURI", "c"), ("buildId", "b1")] "" "any" none []

def c4startB : BuildCommand :=
  .mk "start" [("consoleURI", "c"), ("buildId", "b2")] "" "passed" none []

def c4twoStarts : BuildCommand :=
  .mk "compose" [] "" "any" none [c4startA, c4startB]

/-- C4 counterexample: (i) a `test` command dispatched before any
`start` executes its dispatch action — `buildStatus` is still unset, so
the runIf filter skips nothing, the stat runs and its error is
returned; (ii) `start` is not limited to one run per session — a
second start executes `processStart` again and overwrites the build
id. -/
theorem c4_prestart_cex :
    process wC4 1 c4preStartTest initialState =
      .ok (initialState, some "stat x: no such file or directory")
    ∧ (process wBase 2 c4twoStarts initialState).toOption.map
        (fun pr => pr.1.buildId) = some "b2" :=
  ⟨rfl, rfl⟩

/-- C4 (amended): the interpreter does not enforce a start-first
discipline: while `buildStatus` is unset the runIf filter skips
nothing, so any non-guarded command goes straight to its dispatch
action; and nothing restricts `start` to a single run — a start command
that passes the filter executes `processStart` (reinitializing buildId,
envs and buildStatus) no matter how often start has already run. -/
theorem c4_no_start_gate (w : World) (f : Nat) (nm : String)
    (args : List (String × String)) (wd ric : String) (subs : List BuildCommand)
    (s : SessionState) (hc : s.canceled = false) (hst : s.buildStatus = "") :
    process w (f + 1) (.mk nm args wd ric none subs) s =
      dispatch w (process w f) nm args wd subs s
    ∧ (∀ (argsS : List (String × String)) (wdS : String)
        (subsS : List BuildCommand) (s2 : SessionState),
        s2.canceled = false → s2.buildStatus = "passed" →
        process w (f + 1) (.mk "start" argsS wdS "passed" none subsS) s2 =
          .ok (processStart w argsS s2)) := by
  constructor
  · simp [process, hst, hc]
  · intro argsS wdS subsS s2 hc2 hst2
    simp [process, dispatch, hc2, hst2]

theorem c4_no_start_gate_witness :
    process wBase 1
        (BuildCommand.mk "test" [("flag", "-d"), ("path", "x")] "" "any" none [])
        initialState =
      dispatch wBase (process wBase 0) "test" [("flag", "-d"), ("path", "x")] ""
        [] initialState
    ∧ process wBase 1
        (BuildCommand.mk "start" [("consoleURI", "c"), ("buildId", "b2")] ""
          "passed" none [])
        { initialState with buildStatus := "passed" } =
      .ok (processStart wBase [("consoleURI", "c"), ("buildId", "b2")]
            { initialState with buildStatus := "passed" }) :=
  have h := c4_no_start_gate wBase 0 "test" [("flag", "-d"), ("path", "x")] ""
    "any" [] initialState rfl rfl
  ⟨h.1, h.2 [("consoleURI", "c"), ("buildId", "b2")] "" []
    { initialState with buildStatus := "passed" } rfl rfl⟩

end GocdAgent
